import Mathlib

/-!
Verification of the ts-ascii-engine conversion core.

Shallow embedding of the conversion pipeline of `ts-ascii-engine`
(`src/core/ascii-engine.ts`, `src/utils/canvas-helpers.ts`,
`src/types/interfaces.ts`) together with proofs about it.

Modelling conventions:
* JavaScript `number` values are modelled by exact fractions of integers
  (`JsRat`, an unreduced numerator/denominator pair, kept computable so
  concrete runs of the engine evaluate inside the kernel); `Math.floor`
  becomes floor division of the fraction.  Every quantity reached by the
  properties proved here is a small integer or an exact decimal fraction,
  where IEEE-754 double arithmetic agrees with exact rational arithmetic.
  The valuation `JsRat.val` into `ℚ` is used to state value-level facts.
* RGBA byte buffers (`Uint8ClampedArray`) are modelled as `List ℕ`; array
  reads `a[i]` that the source guards by an explicit bounds check are
  modelled by `List.getD`.
* Exceptions (`throw new Error(msg)`) are modelled by `Except String`.
* Wall-clock measurement (`performance.now`) is not modelled; the
  `processingTime` metadata field is omitted.
-/

namespace AsciiEngine

/-- A JavaScript number, as an exact (unreduced) fraction `num / den`.
All constructors used by the engine keep `den` positive; a zero or negative
denominator is junk that no theorem below relies on. -/
structure JsRat where
  num : ℤ
  den : ℤ
  deriving Repr, DecidableEq

namespace JsRat

/-- Embed an integer. -/
def ofInt (n : ℤ) : JsRat := ⟨n, 1⟩

instance instOfNatJsRat (n : ℕ) : OfNat JsRat n := ⟨⟨(n : ℤ), 1⟩⟩

/-- Sign-normalizing constructor: keeps the denominator non-negative. -/
def mkF (n d : ℤ) : JsRat := if d < 0 then ⟨-n, -d⟩ else ⟨n, d⟩

instance : Add JsRat :=
  ⟨fun a b => ⟨a.num * b.den + b.num * a.den, a.den * b.den⟩⟩

instance : Sub JsRat :=
  ⟨fun a b => ⟨a.num * b.den - b.num * a.den, a.den * b.den⟩⟩

instance : Mul JsRat :=
  ⟨fun a b => ⟨a.num * b.num, a.den * b.den⟩⟩

instance : Div JsRat :=
  ⟨fun a b => mkF (a.num * b.den) (a.den * b.num)⟩

/-- The rational value of a `JsRat` (for stating value-level properties). -/
def val (q : JsRat) : ℚ := (q.num : ℚ) / (q.den : ℚ)

/-- `Math.floor`, as floor division of the fraction (exact for a positive
denominator, which all engine-made values have). -/
def jsFloor (q : JsRat) : ℤ := q.num.fdiv q.den

/-- `Math.ceil` (used only to count iterations of `for (x = 0; x < w; x++)`
loops, see `natIter`). -/
def jsCeil (q : JsRat) : ℤ := -((-q.num).fdiv q.den)

/-- JavaScript `<=` on numbers, by cross-multiplication (correct for
positive denominators, which all values compared by the engine have). -/
def jsLe (a b : JsRat) : Bool := decide (a.num * b.den ≤ b.num * a.den)

/-- `Math.min` of two numbers. -/
def jsMin (a b : JsRat) : JsRat := if jsLe a b then a else b

end JsRat

open JsRat

/-- JavaScript truthiness of an optional number: `undefined` and `0` are
falsy (a fraction is zero exactly when its numerator is). -/
def jsTruthy (x : Option JsRat) : Bool :=
  match x with
  | none => false
  | some q => q.num != 0

/-- RGBA colour of one grid cell, as produced by `samplePixelColor`
(integer channels). Mirrors `CharColor` of `src/types/interfaces.ts`. -/
structure CellColor where
  r : ℕ
  g : ℕ
  b : ℕ
  a : ℕ
  deriving Repr, DecidableEq

/-- Mirrors `PixelData` of `src/types/interfaces.ts`: raw RGBA bytes plus
declared dimensions. -/
structure PixelData where
  data : List ℕ
  width : ℕ
  height : ℕ
  deriving Repr, DecidableEq

/-- Embeds `calculateLuminance` (canvas-helpers): Rec. 601 luma
`0.299 * r + 0.587 * g + 0.114 * b` (the decimal literals are exact in the
model; see the header note on IEEE-754). -/
def calculateLuminance (r g b : ℕ) : JsRat :=
  (⟨299, 1000⟩ : JsRat) * ofInt r + (⟨587, 1000⟩ : JsRat) * ofInt g
    + (⟨114, 1000⟩ : JsRat) * ofInt b

/-- Embeds `luminanceToChar` (canvas-helpers): normalize the luminance to
`[0,1]`, optionally invert, scale by `charset.length - 1`, floor, clamp to
`[0, length-1]`, and index into the charset.  JavaScript string indexing
`charset[i]` is modelled by `List.getD` on the character list (the default
is unreachable for the non-empty charsets the engine validates). -/
def luminanceToChar (luminance : JsRat) (charset : String) (inverted : Bool) : Char :=
  let normalizedLuminance : JsRat := luminance / 255
  let adjustedLuminance : JsRat :=
    if inverted then (1 : JsRat) - normalizedLuminance else normalizedLuminance
  let index : ℤ := jsFloor (adjustedLuminance * ofInt ((charset.length : ℤ) - 1))
  let clampedIndex : ℤ := max 0 (min ((charset.length : ℤ) - 1) index)
  charset.data.getD clampedIndex.toNat ' '

/-- Output of `calculateDimensions`.  Both components are JavaScript
numbers in the source; the height is always the result of `Math.floor`. -/
structure Dimensions where
  width : JsRat
  height : JsRat
  deriving Repr, DecidableEq

/-- Embeds `calculateDimensions` (canvas-helpers): a truthy target width
takes precedence, else a truthy target height, else a default width of
`Math.min(100, sourceWidth)`; the free dimension is derived from the source
aspect ratio corrected by `aspectRatio` and floored. -/
def calculateDimensions (sourceWidth sourceHeight : JsRat)
    (targetWidth targetHeight : Option JsRat) (aspectRatio : JsRat) : Dimensions :=
  if jsTruthy targetWidth then
    let tw := targetWidth.getD 0
    ⟨tw, ofInt (jsFloor (sourceHeight / sourceWidth * tw * aspectRatio))⟩
  else if jsTruthy targetHeight then
    let th := targetHeight.getD 0
    ⟨ofInt (jsFloor (sourceWidth / sourceHeight * th / aspectRatio)), th⟩
  else
    let defaultWidth : JsRat := jsMin 100 sourceWidth
    ⟨defaultWidth, ofInt (jsFloor (sourceHeight / sourceWidth * defaultWidth * aspectRatio))⟩

/-- The integers `a, a+1, ..., b-1` (empty for `b ≤ a`): the values taken
by a JavaScript `for (let i = a; i < b; i++)` loop counter. -/
def intRange (a b : ℤ) : List ℤ :=
  (List.range (b - a).toNat).map fun i => a + (i : ℤ)

/-- The channel/count accumulator of the sampling loop of
`samplePixelColor` (`r`, `g`, `b`, `a`, `sampleCount`). -/
structure SampleAcc where
  r : ℕ
  g : ℕ
  b : ℕ
  a : ℕ
  count : ℕ
  deriving Repr, DecidableEq

/-- One guarded accumulation step of the sampling loop: add the four
channel bytes at base index `i` (the source reads `data[index] ..
data[index+3]` after checking `index + 3 < data.length`). -/
def sampleAdd (data : List ℕ) (acc : SampleAcc) (i : ℤ) : SampleAcc :=
  ⟨acc.r + data.getD i.toNat 0,
   acc.g + data.getD (i.toNat + 1) 0,
   acc.b + data.getD (i.toNat + 2) 0,
   acc.a + data.getD (i.toNat + 3) 0,
   acc.count + 1⟩

/-- Embeds `samplePixelColor` (canvas-helpers): average all pixels of the
grid cell's rectangle, bounds-checked, floor-divided by the sample count,
with `{0,0,0,255}` when no pixel was sampled. -/
def samplePixelColor (pixelData : PixelData) (gridX gridY : ℕ)
    (gridWidth gridHeight : JsRat) : CellColor :=
  let cellWidth : JsRat := ofInt pixelData.width / gridWidth
  let cellHeight : JsRat := ofInt pixelData.height / gridHeight
  let startX : ℤ := jsFloor (ofInt gridX * cellWidth)
  let startY : ℤ := jsFloor (ofInt gridY * cellHeight)
  let endX : ℤ := jsFloor ((ofInt gridX + 1) * cellWidth)
  let endY : ℤ := jsFloor ((ofInt gridY + 1) * cellHeight)
  let ys := intRange startY (min endY (pixelData.height : ℤ))
  let xs := intRange startX (min endX (pixelData.width : ℤ))
  let st := ys.foldl (fun acc y =>
    xs.foldl (fun acc x =>
      let index : ℤ := (y * (pixelData.width : ℤ) + x) * 4
      if index + 3 < (pixelData.data.length : ℤ) then
        sampleAdd pixelData.data acc index
      else acc) acc) ⟨0, 0, 0, 0, 0⟩
  if st.count = 0 then ⟨0, 0, 0, 255⟩
  else ⟨st.r / st.count, st.g / st.count, st.b / st.count, st.a / st.count⟩

/-- The base indices of the in-bounds pixels of the grid cell's rectangle,
in loop order (specification-side description of the sampling loop of
`samplePixelColor`: the rectangle is
`[floor(x*cw), floor((x+1)*cw)) × [floor(y*ch), floor((y+1)*ch))`
intersected with the buffer, and a pixel counts only if its four bytes lie
inside the byte array). -/
def cellSampleIndices (pixelData : PixelData) (gridX gridY : ℕ)
    (gridWidth gridHeight : JsRat) : List ℤ :=
  let cellWidth : JsRat := ofInt pixelData.width / gridWidth
  let cellHeight : JsRat := ofInt pixelData.height / gridHeight
  let startX : ℤ := jsFloor (ofInt gridX * cellWidth)
  let startY : ℤ := jsFloor (ofInt gridY * cellHeight)
  let endX : ℤ := jsFloor ((ofInt gridX + 1) * cellWidth)
  let endY : ℤ := jsFloor ((ofInt gridY + 1) * cellHeight)
  let ys := intRange startY (min endY (pixelData.height : ℤ))
  let xs := intRange startX (min endX (pixelData.width : ℤ))
  ys.flatMap fun y =>
    xs.filterMap fun x =>
      let index : ℤ := (y * (pixelData.width : ℤ) + x) * 4
      if index + 3 < (pixelData.data.length : ℤ) then some index else none

/-- Specification-side restatement of `samplePixelColor`: sum each channel
over the in-bounds pixels of the cell's rectangle, floor-divide each sum by
the number of sampled pixels, and return `{0,0,0,255}` when that number is
zero (so no division by zero ever happens). -/
def samplePixelColorSpec (pixelData : PixelData) (gridX gridY : ℕ)
    (gridWidth gridHeight : JsRat) : CellColor :=
  let idxs := cellSampleIndices pixelData gridX gridY gridWidth gridHeight
  let n := idxs.length
  if n = 0 then ⟨0, 0, 0, 255⟩
  else
    ⟨(idxs.map fun i => pixelData.data.getD i.toNat 0).sum / n,
     (idxs.map fun i => pixelData.data.getD (i.toNat + 1) 0).sum / n,
     (idxs.map fun i => pixelData.data.getD (i.toNat + 2) 0).sum / n,
     (idxs.map fun i => pixelData.data.getD (i.toNat + 3) 0).sum / n⟩

/-- Embeds `rgbToCSS` (canvas-helpers): clamp the channels to `[0,255]`
and render `rgba(r,g,b,alpha)` with the alpha rendered to two decimal
places (`(a/255).toFixed(2)`; the IEEE-754 rounding of `toFixed` is
modelled as exact round-half-up to hundredths, which no claim exercises). -/
def rgbToCSS (r g b a : ℕ) : String :=
  let clampedR := min 255 r
  let clampedG := min 255 g
  let clampedB := min 255 b
  let clampedA := min 255 a
  let hundredths := (clampedA * 100 * 2 + 255) / (255 * 2)
  "rgba(" ++ toString clampedR ++ "," ++ toString clampedG ++ ","
    ++ toString clampedB ++ "," ++ toString (hundredths / 100) ++ "."
    ++ (if hundredths % 100 < 10 then "0" else "") ++ toString (hundredths % 100) ++ ")"

/-- The five preset names of the `CharsetPreset` string enum
(`Object.values(CharsetPreset)`). -/
def presetNames : List String := ["BLOCK", "STANDARD", "MINIMAL", "EXTENDED", "CUSTOM"]

/-- Embeds `CHARSET_MAP` (interfaces): the canonical dark-to-light glyph
ramp of each non-custom preset. -/
def CHARSET_MAP (preset : String) : String :=
  if preset = "BLOCK" then "██▓▒░ "
  else if preset = "STANDARD" then "@%#*+=-:. "
  else if preset = "MINIMAL" then "@+. "
  else if preset = "EXTENDED" then
    "$@B%8&WM#*oahkbdpqwmZO0QLCJUYXzcvunxrjft/\\|()1\x7b\x7d[]?-_+~<>i!lI;:,\"^\x60\x27. "
  else ""

/-- The characters stripped from a custom charset
(the regex `[<>'"&`]` of `resolveCharset`, written with character codes
39, 34 and 96 for quote, double quote and backtick). -/
def dangerousChars : List Char := ['<', '>', Char.ofNat 39, Char.ofNat 34, '&', Char.ofNat 96]

/-- The sanitization step of `resolveCharset`:
`charset.replace(/[<>'"&`]/g, '')`, i.e. drop every dangerous character and
keep the rest in order. -/
def sanitizeCharset (s : String) : String :=
  String.mk (s.data.filter fun c => !(dangerousChars.contains c))

/-- Embeds `AsciiGenerator.resolveCharset`: a preset name maps through
`CHARSET_MAP` (the CUSTOM sentinel is an error); any other non-empty string
is a custom ramp, sanitized, an error when nothing survives; an empty
string is an error. -/
def resolveCharset (charset : String) : Except String String :=
  if presetNames.contains charset then
    if charset = "CUSTOM" then
      Except.error "CUSTOM preset requires a custom charset string"
    else Except.ok (CHARSET_MAP charset)
  else if charset.length > 0 then
    let sanitized := sanitizeCharset charset
    if sanitized.length = 0 then
      Except.error "Custom charset contains only invalid characters. Characters <, >, \x27, \", &, and \x60 are not allowed."
    else Except.ok sanitized
  else Except.error "Invalid charset configuration"

/-- Embeds `AsciiGenerator.escapeHtml` on a single character: the map
applied to every character matched by the regex `[&<>"'`]`. -/
def escapeHtmlChar (c : Char) : String :=
  if c = '&' then "&amp;"
  else if c = '<' then "&lt;"
  else if c = '>' then "&gt;"
  else if c = Char.ofNat 34 then "&quot;"
  else if c = Char.ofNat 39 then "&#039;"
  else if c = Char.ofNat 96 then "&#96;"
  else String.singleton c

/-- Embeds `AsciiGenerator.escapeHtml`: replace every occurrence of a
character of `[&<>"'`]` by its entity (`String.replace` with a global
regex acts independently on each character). -/
def escapeHtml (text : String) : String :=
  String.join (text.data.map escapeHtmlChar)

/-- One step of a standard HTML entity decoder (specification-side, not
from the source): recognize the entities the engine can emit at the head
of the character list and copy anything else verbatim.  `fuel` bounds the
recursion (each step consumes at least one character). -/
def htmlUnescapeList (fuel : ℕ) (l : List Char) : List Char :=
  match fuel, l with
  | 0, rest => rest
  | _ + 1, [] => []
  | fuel + 1, c :: rest =>
    if c = '&' then
      if ['a', 'm', 'p', ';'].isPrefixOf rest then
        '&' :: htmlUnescapeList fuel (rest.drop 4)
      else if ['l', 't', ';'].isPrefixOf rest then
        '<' :: htmlUnescapeList fuel (rest.drop 3)
      else if ['g', 't', ';'].isPrefixOf rest then
        '>' :: htmlUnescapeList fuel (rest.drop 3)
      else if ['q', 'u', 'o', 't', ';'].isPrefixOf rest then
        Char.ofNat 34 :: htmlUnescapeList fuel (rest.drop 5)
      else if ['#', '0', '3', '9', ';'].isPrefixOf rest then
        Char.ofNat 39 :: htmlUnescapeList fuel (rest.drop 5)
      else if ['#', '9', '6', ';'].isPrefixOf rest then
        Char.ofNat 96 :: htmlUnescapeList fuel (rest.drop 4)
      else c :: htmlUnescapeList fuel rest
    else c :: htmlUnescapeList fuel rest

/-- A standard HTML entity decoder for the entities the engine emits. -/
def htmlUnescape (s : String) : String :=
  String.mk (htmlUnescapeList s.data.length s.data)

/-- The fully-resolved configuration (`Required<AsciiConfig>` of the
source): `charset` is the raw configured value (preset name or custom
ramp), dimensions are integers in every claim considered. -/
structure AsciiConfig where
  charset : String
  inverted : Bool
  colored : Bool
  aspectRatio : JsRat
  width : ℤ
  height : ℤ
  optimized : Bool
  deriving Repr, DecidableEq

/-- A `Partial<AsciiConfig>` argument: absent fields are `none`. -/
structure ConfigUpdate where
  charset : Option String := none
  inverted : Option Bool := none
  colored : Option Bool := none
  aspectRatio : Option JsRat := none
  width : Option ℤ := none
  height : Option ℤ := none
  optimized : Option Bool := none
  deriving Repr, DecidableEq

/-- The state of an `AsciiGenerator` instance: the stored configuration and
the resolved charset cache (`this.config` and `this.charset`). -/
structure GenState where
  config : AsciiConfig
  charset : String
  deriving Repr, DecidableEq

/-- Embeds `AsciiGenerator.validateConfig` (checks in source order; the
colored flag is never consulted). -/
def validateConfig (charset : String) (config : AsciiConfig) : Except String Unit :=
  if charset.length = 0 then Except.error "Charset cannot be empty"
  else if jsLe config.aspectRatio 0 then Except.error "Aspect ratio must be positive"
  else if config.width < 0 || config.height < 0 then
    Except.error "Width and height must be non-negative"
  else if config.width > 10000 then
    Except.error "Width exceeds maximum allowed (10000)"
  else if config.height > 10000 then
    Except.error "Height exceeds maximum allowed (10000)"
  else if config.width > 0 && config.height > 0
      && config.width * config.height > 25000000 then
    Except.error ("Total character count (" ++ toString (config.width * config.height)
      ++ ") exceeds maximum allowed (25000000)")
  else Except.ok ()

/-- The default aspect ratio `0.55` (the literal `0.55` is the exact
decimal fraction `55/100` in the model). -/
def aspect055 : JsRat := ⟨55, 100⟩

/-- Embeds the `AsciiGenerator` constructor: merge the supplied fields over
the documented defaults, resolve the charset, validate; any failure is the
construction failing. -/
def mkAsciiGenerator (input : ConfigUpdate) : Except String GenState :=
  let config : AsciiConfig :=
    { charset := input.charset.getD "STANDARD"
      inverted := input.inverted.getD false
      colored := input.colored.getD false
      aspectRatio := input.aspectRatio.getD aspect055
      width := input.width.getD 0
      height := input.height.getD 0
      optimized := input.optimized.getD true }
  match resolveCharset config.charset with
  | Except.error e => Except.error e
  | Except.ok resolved =>
    match validateConfig resolved config with
    | Except.error e => Except.error e
    | Except.ok _ => Except.ok ⟨config, resolved⟩

/-- Embeds `AsciiGenerator.updateConfig`, including its failure behaviour:
fields are written one at a time, so a thrown error leaves the fields
already written in place.  The result is the state as it stands when the
call returns or throws, paired with the outcome. -/
def updateConfig (st : GenState) (u : ConfigUpdate) : GenState × Except String Unit :=
  match u.charset with
  | some cs =>
    let stA : GenState := { st with config := { st.config with charset := cs } }
    match resolveCharset cs with
    | Except.error e => (stA, Except.error e)
    | Except.ok resolved =>
      let stB : GenState := { stA with charset := resolved }
      updateRest stB u
  | none => updateRest st u
where
  /-- The field writes after the charset one, then the final validation. -/
  updateRest (st : GenState) (u : ConfigUpdate) : GenState × Except String Unit :=
    let cfg := st.config
    let cfg : AsciiConfig :=
      { cfg with
        inverted := u.inverted.getD cfg.inverted
        colored := u.colored.getD cfg.colored
        aspectRatio := u.aspectRatio.getD cfg.aspectRatio
        width := u.width.getD cfg.width
        height := u.height.getD cfg.height
        optimized := u.optimized.getD cfg.optimized }
    let st2 : GenState := { st with config := cfg }
    match validateConfig st2.charset st2.config with
    | Except.error e => (st2, Except.error e)
    | Except.ok _ => (st2, Except.ok ())

/-- `true` exactly on a success. -/
def exceptOk {ε α : Type} : Except ε α → Bool
  | Except.ok _ => true
  | Except.error _ => false

instance {ε α : Type} [DecidableEq ε] [DecidableEq α] : DecidableEq (Except ε α) :=
  fun a b =>
    match a, b with
    | Except.ok x, Except.ok y =>
      if h : x = y then Decidable.isTrue (by rw [h]) else Decidable.isFalse (by simp [h])
    | Except.ok _, Except.error _ => Decidable.isFalse (by simp)
    | Except.error _, Except.ok _ => Decidable.isFalse (by simp)
    | Except.error x, Except.error y =>
      if h : x = y then Decidable.isTrue (by rw [h]) else Decidable.isFalse (by simp [h])

/-- The number of iterations of `for (let i = 0; i < bound; i++)` for a
numeric `bound`: `max 0 ⌈bound⌉`. -/
def natIter (bound : JsRat) : ℕ := (jsCeil bound).toNat

/-- The HTML emitted for one cell by the inner loop of
`processPixelData`: a colored `<span>` around the escaped glyph when
`colored`, the escaped glyph alone otherwise. -/
def htmlCell (colored : Bool) (color : CellColor) (char : Char) : String :=
  if colored then
    "<span style=\"color:" ++ rgbToCSS color.r color.g color.b color.a ++ "\">"
      ++ escapeHtml (String.singleton char) ++ "</span>"
  else escapeHtml (String.singleton char)

/-- Embeds `AsciiGenerator.buildHtmlOutput`. -/
def buildHtmlOutput (colored : Bool) (lines : List String) : String :=
  let preStyle :=
    if colored then
      "style=\"font-family:monospace;line-height:1;white-space:pre;background:#000\""
    else "style=\"font-family:monospace;line-height:1;white-space:pre\""
  "<pre " ++ preStyle ++ ">" ++ String.intercalate "\n" lines ++ "</pre>"

/-- The text/html/grid part of a conversion result. -/
structure ProcessResult where
  text : String
  html : String
  characters : List (List Char)
  colors : Option (List (List CellColor))
  deriving Repr, DecidableEq

/-- Embeds `AsciiGenerator.processPixelData`: for every grid cell, sample
its colour, take the luminance, map it to a glyph; accumulate glyph rows,
text lines and HTML lines.  The `optimized` pre-allocation of the source
changes no observable output and is not modelled. -/
def processPixelData (st : GenState) (pixelData : PixelData)
    (dimensions : Dimensions) : ProcessResult :=
  let height := natIter dimensions.height
  let width := natIter dimensions.width
  let rows : List (List (Char × CellColor)) :=
    (List.range height).map fun y =>
      (List.range width).map fun x =>
        let color := samplePixelColor pixelData x y dimensions.width dimensions.height
        let luminance := calculateLuminance color.r color.g color.b
        let char := luminanceToChar luminance st.charset st.config.inverted
        (char, color)
  let characters := rows.map fun row => row.map Prod.fst
  let lines := rows.map fun row => String.mk (row.map Prod.fst)
  let htmlLines := rows.map fun row =>
    String.join (row.map fun cell => htmlCell st.config.colored cell.2 cell.1)
  { text := String.intercalate "\n" lines
    html := buildHtmlOutput st.config.colored htmlLines
    characters := characters
    colors := if st.config.colored then some (rows.map fun row => row.map Prod.snd) else none }

/-- Conversion metadata (`AsciiMetadata` without the wall-clock
`processingTime`). -/
structure AsciiMetadata where
  width : JsRat
  height : JsRat
  characterCount : JsRat
  charset : String
  hasColor : Bool
  deriving Repr, DecidableEq

/-- A complete conversion output (`AsciiOutput`). -/
structure AsciiOutput where
  text : String
  html : String
  characters : List (List Char)
  colors : Option (List (List CellColor))
  metadata : AsciiMetadata
  deriving Repr, DecidableEq

/-- Embeds `AsciiGenerator.convertImage` for an `ImageData` source (the
case every claim exercises): `extractPixelData` passes a raw buffer
through unchanged, with and without target dimensions, so both extractions
yield `pixelData` itself; then dimensions are calculated (`0` becomes
`undefined` through `|| undefined`), the grid is processed, and metadata
assembled with `characterCount = width * height`. -/
def convertImage (st : GenState) (pixelData : PixelData) : AsciiOutput :=
  let dimensions := calculateDimensions
    (ofInt pixelData.width) (ofInt pixelData.height)
    (if st.config.width = 0 then none else some (ofInt st.config.width))
    (if st.config.height = 0 then none else some (ofInt st.config.height))
    st.config.aspectRatio
  let result := processPixelData st pixelData dimensions
  { text := result.text
    html := result.html
    characters := result.characters
    colors := result.colors
    metadata :=
      { width := dimensions.width
        height := dimensions.height
        characterCount := dimensions.width * dimensions.height
        charset := st.charset
        hasColor := st.config.colored } }

/-- The 2×2 solid-black RGBA buffer of the end-to-end scenario (four
pixels, each `{0,0,0,255}`). -/
def black2x2 : PixelData :=
  ⟨[0, 0, 0, 255, 0, 0, 0, 255, 0, 0, 0, 255, 0, 0, 0, 255], 2, 2⟩

/-- A configuration update with no field present. -/
def emptyUpdate : ConfigUpdate := {}

/-- The state of a default-constructed generator (STANDARD charset, no
target dimensions, aspect ratio 0.55). -/
def defaultState : GenState :=
  ⟨⟨"STANDARD", false, false, aspect055, 0, 0, true⟩, "@%#*+=-:. "⟩

/-- The constructor input of the end-to-end scenario: `width = 2`, all
else defaulted. -/
def widthTwoUpdate : ConfigUpdate := { width := some 2 }

/-- The generator state of the end-to-end scenario (`width = 2`,
STANDARD charset, defaults elsewhere). -/
def widthTwoState : GenState :=
  ⟨⟨"STANDARD", false, false, aspect055, 2, 0, true⟩, "@%#*+=-:. "⟩

end AsciiEngine

namespace AsciiEngine

namespace JsRat

theorem add_def (a b : JsRat) :
    a + b = ⟨a.num * b.den + b.num * a.den, a.den * b.den⟩ := rfl

theorem sub_def (a b : JsRat) :
    a - b = ⟨a.num * b.den - b.num * a.den, a.den * b.den⟩ := rfl

theorem mul_def (a b : JsRat) : a * b = ⟨a.num * b.num, a.den * b.den⟩ := rfl

theorem div_def (a b : JsRat) : a / b = mkF (a.num * b.den) (a.den * b.num) := rfl

theorem ofNat_eq_ofInt (n : ℕ) : (OfNat.ofNat n : JsRat) = ofInt (OfNat.ofNat n) := rfl

theorem val_mk (n d : ℤ) : val ⟨n, d⟩ = (n : ℚ) / (d : ℚ) := rfl

theorem mkF_of_pos {n d : ℤ} (h : 0 < d) : mkF n d = ⟨n, d⟩ := by
  unfold mkF
  rw [if_neg (by omega)]

theorem den_mkF_pos {n d : ℤ} (h : d ≠ 0) : 0 < (mkF n d).den := by
  unfold mkF
  split
  · simp only
    omega
  · simp only
    omega

theorem val_mkF (n d : ℤ) : (mkF n d).val = (n : ℚ) / (d : ℚ) := by
  unfold mkF
  split
  · simp only [val_mk, Int.cast_neg, neg_div_neg_eq]
  · rfl

theorem val_ofInt (n : ℤ) : (ofInt n).val = (n : ℚ) := by
  simp [ofInt, val]

theorem val_mul (a b : JsRat) : (a * b).val = a.val * b.val := by
  rw [mul_def, val_mk]
  unfold val
  push_cast
  rw [div_mul_div_comm]

theorem val_div (a b : JsRat) : (a / b).val = a.val / b.val := by
  rw [div_def, val_mkF]
  unfold val
  rw [div_eq_mul_inv ((a.num : ℚ) / (a.den : ℚ)), inv_div, div_mul_div_comm]
  push_cast
  rfl

theorem val_sub (a b : JsRat) (ha : a.den ≠ 0) (hb : b.den ≠ 0) :
    (a - b).val = a.val - b.val := by
  rw [sub_def, val_mk]
  unfold val
  have ha' : (a.den : ℚ) ≠ 0 := Int.cast_ne_zero.mpr ha
  have hb' : (b.den : ℚ) ≠ 0 := Int.cast_ne_zero.mpr hb
  field_simp
  ring

theorem jsFloor_eq {q : JsRat} (h : 0 < q.den) : jsFloor q = ⌊q.val⌋ := by
  unfold jsFloor val
  rw [Int.fdiv_eq_ediv _ h.le]
  have h2 : ((q.den.toNat : ℕ) : ℤ) = q.den := Int.toNat_of_nonneg h.le
  have h1 : ((q.den.toNat : ℕ) : ℚ) = (q.den : ℚ) := by
    exact_mod_cast congrArg (fun z : ℤ => (z : ℚ)) h2
  calc q.num / q.den = q.num / ((q.den.toNat : ℕ) : ℤ) := by rw [h2]
    _ = ⌊(q.num : ℚ) / ((q.den.toNat : ℕ) : ℚ)⌋ := (Rat.floor_intCast_div_natCast _ _).symm
    _ = ⌊(q.num : ℚ) / (q.den : ℚ)⌋ := by rw [h1]

theorem num_ne_zero_of_val_ne_zero {q : JsRat} (h : q.val ≠ 0) : q.num ≠ 0 := by
  intro h0
  apply h
  unfold val
  rw [h0]
  simp

theorem num_ne_zero_of_val_pos {q : JsRat} (h : 0 < q.val) : q.num ≠ 0 :=
  num_ne_zero_of_val_ne_zero (ne_of_gt h)

end JsRat

end AsciiEngine

namespace AsciiEngine

/-- C1: the configuration validator enforces no colored-specific ceiling.
`width=2000, height=2000, colored=true` (4,000,000 cells) constructs
successfully — no error at all is raised, in particular none containing
"exceeds maximum allowed for colored output" — while the repository's own
documentation and security tests require that construction to fail; the
boundary `1000×1000` colored case succeeds, and the general
`width*height ≤ 25,000,000` ceiling is enforced (`5000×6000` fails). -/
theorem c1_no_colored_limit :
    exceptOk (mkAsciiGenerator
      { width := some 2000, height := some 2000, colored := some true }) = true
    ∧ exceptOk (mkAsciiGenerator
      { width := some 1000, height := some 1000, colored := some true }) = true
    ∧ exceptOk (mkAsciiGenerator
      { width := some 5000, height := some 6000 }) = false := by
  decide

/-- C2 (counterexample): a failing `updateConfig` can leave the stored
configuration invalid.  The default-constructed state is valid and
reachable; updating it with `aspectRatio = -1` throws, and afterwards the
stored configuration no longer satisfies the validation invariants. -/
theorem c2_counterexample :
    mkAsciiGenerator emptyUpdate = Except.ok defaultState
    ∧ exceptOk (validateConfig defaultState.charset defaultState.config) = true
    ∧ exceptOk (updateConfig defaultState
        { aspectRatio := some (JsRat.ofInt (-1)) }).2 = false
    ∧ exceptOk (validateConfig
        (updateConfig defaultState { aspectRatio := some (JsRat.ofInt (-1)) }).1.charset
        (updateConfig defaultState { aspectRatio := some (JsRat.ofInt (-1)) }).1.config)
      = false := by
  decide

theorem updateRest_ok_valid (st : GenState) (u : ConfigUpdate)
    (h : exceptOk (updateConfig.updateRest st u).2 = true) :
    validateConfig (updateConfig.updateRest st u).1.charset
      (updateConfig.updateRest st u).1.config = Except.ok () := by
  unfold updateConfig.updateRest at h ⊢
  dsimp only at h ⊢
  split at h
  · simp [exceptOk] at h
  · next u1 heq =>
    cases u1
    simp only [heq]

/-- C2 (amended): whenever `updateConfig` returns without throwing, the
stored configuration satisfies every validation invariant; a throwing
update gives no such guarantee (see the counterexample). -/
theorem c2_update_ok_valid (st : GenState) (u : ConfigUpdate)
    (h : exceptOk (updateConfig st u).2 = true) :
    validateConfig (updateConfig st u).1.charset
      (updateConfig st u).1.config = Except.ok () := by
  unfold updateConfig at h ⊢
  split at h
  next cs heq =>
    dsimp only at h ⊢
    split at h
    next e heq2 =>
      simp [exceptOk] at h
    next resolved heq2 =>
      exact updateRest_ok_valid _ _ h
  next heq =>
    exact updateRest_ok_valid _ _ h

/-- C2 (witness): the amended theorem applied to the default state and the
empty update. -/
theorem c2_update_ok_valid_witness :
    validateConfig (updateConfig defaultState emptyUpdate).1.charset
      (updateConfig defaultState emptyUpdate).1.config = Except.ok () :=
  c2_update_ok_valid defaultState emptyUpdate (by decide)

/-- C3 (counterexample): converting the 2×2 solid-black buffer with
`charset=STANDARD`, `width=2`, `height=0`, non-inverted, non-colored and
the default `aspectRatio=0.55` does not produce the claimed 2×2 output:
the aspect-ratio correction makes the grid 2×1
(`height = floor(2/2 * 2 * 0.55) = 1`). -/
theorem c3_counterexample :
    mkAsciiGenerator widthTwoUpdate = Except.ok widthTwoState
    ∧ ¬ ((convertImage widthTwoState black2x2).characters = [['@', '@'], ['@', '@']]
        ∧ (convertImage widthTwoState black2x2).text = "@@\n@@"
        ∧ (convertImage widthTwoState black2x2).metadata.characterCount
          = JsRat.ofInt 4) := by
  decide

/-- C3 (amended): the same conversion yields a single row:
`characters = [["@","@"]]`, `text = "@@"`, `characterCount = 2`
(grid 2×1: the aspect-ratio correction halves the height). -/
theorem c3_single_row :
    mkAsciiGenerator widthTwoUpdate = Except.ok widthTwoState
    ∧ (convertImage widthTwoState black2x2).characters = [['@', '@']]
    ∧ (convertImage widthTwoState black2x2).text = "@@"
    ∧ (convertImage widthTwoState black2x2).metadata.characterCount = JsRat.ofInt 2
    ∧ (convertImage widthTwoState black2x2).metadata.width = JsRat.ofInt 2
    ∧ (convertImage widthTwoState black2x2).metadata.height = JsRat.ofInt 1 := by
  decide

end AsciiEngine

namespace AsciiEngine

namespace JsRat

theorem num_ofNat (n : ℕ) : (OfNat.ofNat n : JsRat).num = OfNat.ofNat n := rfl

theorem den_ofNat (n : ℕ) : (OfNat.ofNat n : JsRat).den = 1 := rfl

theorem num_ofInt (n : ℤ) : (ofInt n).num = n := rfl

theorem den_ofInt (n : ℤ) : (ofInt n).den = 1 := rfl

theorem val_255 : (255 : JsRat).val = (255 : ℚ) := by
  rw [show (255 : JsRat) = ofInt 255 from rfl, val_ofInt]
  norm_num

end JsRat

open JsRat

/-- C4: when a nonzero target width is supplied, `calculateDimensions`
returns exactly that width and height
`floor(sourceHeight/sourceWidth * targetWidth * aspectRatio)`; in
particular `calculateDimensions(640, 480, 80, undefined, 0.55)` is
`{width: 80, height: 33}`.  Numbers are represented as fractions with
positive denominator (`0 < ·.den`), their rational value given by `val`. -/
theorem c4_dimensions_width_precedence
    (sourceWidth sourceHeight targetWidth aspectRatio : JsRat)
    (targetHeight : Option JsRat)
    (hswd : 0 < sourceWidth.den) (hshd : 0 < sourceHeight.den)
    (htwd : 0 < targetWidth.den) (hard : 0 < aspectRatio.den)
    (hsw : 0 < sourceWidth.val) (hsh : 0 < sourceHeight.val)
    (htw : targetWidth.val ≠ 0) (har : 0 < aspectRatio.val) :
    calculateDimensions sourceWidth sourceHeight (some targetWidth) targetHeight aspectRatio
      = ⟨targetWidth,
         ofInt ⌊sourceHeight.val / sourceWidth.val * targetWidth.val * aspectRatio.val⌋⟩
    ∧ calculateDimensions (ofInt 640) (ofInt 480) (some (ofInt 80)) none aspect055
      = ⟨ofInt 80, ofInt 33⟩ := by
  constructor
  · have hnum : targetWidth.num ≠ 0 := num_ne_zero_of_val_ne_zero htw
    have htrue : jsTruthy (some targetWidth) = true := by
      simp [jsTruthy, hnum]
    have hswnum : sourceWidth.num ≠ 0 := num_ne_zero_of_val_pos hsw
    have hdiv : 0 < (sourceHeight / sourceWidth).den := by
      rw [div_def]
      exact den_mkF_pos (mul_ne_zero (by omega) hswnum)
    have hden : 0 < (sourceHeight / sourceWidth * targetWidth * aspectRatio).den := by
      rw [mul_def, mul_def]
      exact mul_pos (mul_pos hdiv htwd) hard
    simp only [calculateDimensions, htrue, if_true, Option.getD_some]
    rw [jsFloor_eq hden, val_mul, val_mul, val_div]
  · decide

end AsciiEngine

namespace AsciiEngine

open JsRat

/-- C5: the non-inverted luminance mapping indexes the charset at
`floor(L/255 * (length-1))` clamped to `[0, length-1]`; in particular for
any 3-glyph charset, luminance 0 selects glyph 0, luminance 128 selects
glyph 1 and luminance 255 selects glyph 2. -/
theorem c5_luminance_to_char_formula (charset : String) (L : JsRat)
    (hcs : 1 ≤ charset.length) (hLd : 0 < L.den)
    (h0 : 0 ≤ L.val) (h255 : L.val ≤ 255) :
    luminanceToChar L charset false
      = charset.data.getD
          (max 0 (min ((charset.length : ℤ) - 1)
            ⌊L.val / 255 * ((charset.length : ℚ) - 1)⌋)).toNat ' '
    ∧ (charset.length = 3 →
        luminanceToChar 0 charset false = charset.data.getD 0 ' '
        ∧ luminanceToChar 128 charset false = charset.data.getD 1 ' '
        ∧ luminanceToChar 255 charset false = charset.data.getD 2 ' ') := by
  constructor
  · show charset.data.getD
        (max 0 (min ((charset.length : ℤ) - 1)
          (jsFloor (L / (255 : JsRat) * ofInt ((charset.length : ℤ) - 1))))).toNat ' ' = _
    have hdd : 0 < (L / (255 : JsRat)).den := by
      rw [div_def]
      apply den_mkF_pos
      show L.den * (255 : ℤ) ≠ 0
      omega
    have hden : 0 < (L / (255 : JsRat) * ofInt ((charset.length : ℤ) - 1)).den := by
      rw [mul_def]
      show 0 < (L / (255 : JsRat)).den * (ofInt ((charset.length : ℤ) - 1)).den
      rw [den_ofInt, mul_one]
      exact hdd
    rw [jsFloor_eq hden, val_mul, val_div, val_ofInt, val_255]
    push_cast
    rfl
  · intro h3
    refine ⟨?_, ?_, ?_⟩
    · show charset.data.getD
          (max 0 (min ((charset.length : ℤ) - 1)
            (jsFloor ((0 : JsRat) / (255 : JsRat) * ofInt ((charset.length : ℤ) - 1))))).toNat ' '
          = charset.data.getD 0 ' '
      rw [h3]
      have hidx : (max 0 (min (((3 : ℕ) : ℤ) - 1)
          (jsFloor ((0 : JsRat) / (255 : JsRat) * ofInt (((3 : ℕ) : ℤ) - 1))))).toNat = 0 := by
        decide
      rw [hidx]
    · show charset.data.getD
          (max 0 (min ((charset.length : ℤ) - 1)
            (jsFloor ((128 : JsRat) / (255 : JsRat) * ofInt ((charset.length : ℤ) - 1))))).toNat ' '
          = charset.data.getD 1 ' '
      rw [h3]
      have hidx : (max 0 (min (((3 : ℕ) : ℤ) - 1)
          (jsFloor ((128 : JsRat) / (255 : JsRat) * ofInt (((3 : ℕ) : ℤ) - 1))))).toNat = 1 := by
        decide
      rw [hidx]
    · show charset.data.getD
          (max 0 (min ((charset.length : ℤ) - 1)
            (jsFloor ((255 : JsRat) / (255 : JsRat) * ofInt ((charset.length : ℤ) - 1))))).toNat ' '
          = charset.data.getD 2 ' '
      rw [h3]
      have hidx : (max 0 (min (((3 : ℕ) : ℤ) - 1)
          (jsFloor ((255 : JsRat) / (255 : JsRat) * ofInt (((3 : ℕ) : ℤ) - 1))))).toNat = 2 := by
        decide
      rw [hidx]

/-- C6: inversion symmetry — mapping luminance `L` with `inverted=true`
selects the same glyph as mapping `255 - L` with `inverted=false`, for
every luminance in `[0,255]` and every non-empty charset. -/
theorem c6_inversion_symmetry (charset : String) (L : JsRat)
    (hcs : 1 ≤ charset.length) (hLd : 0 < L.den)
    (h0 : 0 ≤ L.val) (h255 : L.val ≤ 255) :
    luminanceToChar L charset true
      = luminanceToChar ((255 : JsRat) - L) charset false := by
  have h1 : L / (255 : JsRat) = ⟨L.num * 1, L.den * 255⟩ := by
    rw [div_def]
    apply mkF_of_pos
    show (0 : ℤ) < L.den * 255
    omega
  have h2 : ((255 : JsRat) - L) / (255 : JsRat)
      = ⟨((255 : JsRat) - L).num * 1, ((255 : JsRat) - L).den * 255⟩ := by
    rw [div_def]
    apply mkF_of_pos
    show (0 : ℤ) < ((255 : JsRat) - L).den * 255
    rw [sub_def]
    show (0 : ℤ) < 1 * L.den * 255
    omega
  have key : (1 : JsRat) - L / (255 : JsRat)
      = ((255 : JsRat) - L) / (255 : JsRat) := by
    rw [h1, h2, sub_def, sub_def]
    show (⟨1 * (L.den * 255) - L.num * 1 * 1, 1 * (L.den * 255)⟩ : JsRat)
      = ⟨((255 : ℤ) * L.den - L.num * 1) * 1, 1 * L.den * 255⟩
    rw [JsRat.mk.injEq]
    constructor
    · ring
    · ring
  show charset.data.getD
      (max 0 (min ((charset.length : ℤ) - 1)
        (jsFloor (((1 : JsRat) - L / (255 : JsRat)) * ofInt ((charset.length : ℤ) - 1))))).toNat ' '
    = charset.data.getD
      (max 0 (min ((charset.length : ℤ) - 1)
        (jsFloor ((((255 : JsRat) - L) / (255 : JsRat)) * ofInt ((charset.length : ℤ) - 1))))).toNat ' '
  rw [key]

end AsciiEngine

namespace AsciiEngine

open JsRat

theorem JsRat.val_ofNat (n : ℕ) : (OfNat.ofNat n : JsRat).val = (n : ℚ) := by
  show val ⟨(n : ℤ), 1⟩ = (n : ℚ)
  simp [val]

/-- C4 (witness): the dimension theorem at `640×480`, target width `80`,
aspect ratio `0.55`. -/
theorem c4_dimensions_witness :
    calculateDimensions (ofInt 640) (ofInt 480) (some (ofInt 80)) none aspect055
      = ⟨ofInt 80, ofInt 33⟩ :=
  (c4_dimensions_width_precedence (ofInt 640) (ofInt 480) (ofInt 80) aspect055 none
    (by decide) (by decide) (by decide) (by decide)
    (by norm_num [JsRat.val, JsRat.ofInt])
    (by norm_num [JsRat.val, JsRat.ofInt])
    (by norm_num [JsRat.val, JsRat.ofInt])
    (by norm_num [JsRat.val, aspect055])).2

/-- C5 (witness): the luminance-mapping theorem at the 3-glyph charset
`"A B"` and luminance 128. -/
theorem c5_luminance_witness :
    luminanceToChar (128 : JsRat) "A B" false
      = "A B".data.getD
          (max 0 (min (("A B".length : ℤ) - 1)
            ⌊(128 : JsRat).val / 255 * (("A B".length : ℚ) - 1)⌋)).toNat ' '
    ∧ ("A B".length = 3 →
        luminanceToChar 0 "A B" false = "A B".data.getD 0 ' '
        ∧ luminanceToChar 128 "A B" false = "A B".data.getD 1 ' '
        ∧ luminanceToChar 255 "A B" false = "A B".data.getD 2 ' ') :=
  c5_luminance_to_char_formula "A B" (128 : JsRat) (by decide) (by decide)
    (by show (0 : ℚ) ≤ JsRat.val ⟨128, 1⟩; norm_num [JsRat.val])
    (by show JsRat.val ⟨128, 1⟩ ≤ 255; norm_num [JsRat.val])

/-- C6 (witness): the inversion-symmetry theorem at luminance 100 over the
MINIMAL charset. -/
theorem c6_inversion_witness :
    luminanceToChar (100 : JsRat) "@+. " true
      = luminanceToChar ((255 : JsRat) - (100 : JsRat)) "@+. " false :=
  c6_inversion_symmetry "@+. " (100 : JsRat) (by decide) (by decide)
    (by show (0 : ℚ) ≤ JsRat.val ⟨100, 1⟩; norm_num [JsRat.val])
    (by show JsRat.val ⟨100, 1⟩ ≤ 255; norm_num [JsRat.val])

end AsciiEngine

namespace AsciiEngine

open JsRat

/-- C7: resolving a custom (non-preset) charset strips exactly the
characters `< > ' " & ` ` (backtick), keeps the rest in order (the
sanitized list is a sublist of the input with exactly the non-dangerous
characters), errors when nothing remains, and in particular
`"<script>"` resolves to `"script"`. -/
theorem c7_custom_charset_sanitization (s : String)
    (hnp : s ∉ presetNames) (hpos : 0 < s.length) :
    ((sanitizeCharset s).length ≠ 0 → resolveCharset s = Except.ok (sanitizeCharset s))
    ∧ ((sanitizeCharset s).length = 0 → resolveCharset s
        = Except.error "Custom charset contains only invalid characters. Characters <, >, \x27, \", &, and \x60 are not allowed.")
    ∧ (sanitizeCharset s).data.Sublist s.data
    ∧ (∀ c : Char, c ∈ (sanitizeCharset s).data ↔ c ∈ s.data ∧ c ∉ dangerousChars)
    ∧ resolveCharset "<script>" = Except.ok "script" := by
  have hc : presetNames.contains s = false := by simpa using hnp
  refine ⟨?_, ?_, ?_, ?_, by decide⟩
  · intro hne
    unfold resolveCharset
    rw [hc]
    simp only [Bool.false_eq_true, if_false, gt_iff_lt, hpos, if_true, hne]
  · intro hz
    unfold resolveCharset
    rw [hc]
    simp only [Bool.false_eq_true, if_false, gt_iff_lt, hpos, if_true, hz]
  · exact List.filter_sublist s.data
  · intro c
    simp [sanitizeCharset, List.mem_filter]

/-- C7 (witness): the sanitization theorem at the custom charset
`"<script>"`. -/
theorem c7_sanitization_witness :
    resolveCharset "<script>" = Except.ok (sanitizeCharset "<script>") :=
  (c7_custom_charset_sanitization "<script>" (by decide) (by decide)).1 (by decide)

end AsciiEngine

namespace AsciiEngine

open JsRat

/-- C8: every glyph emitted into the HTML output is HTML-escaped whether
or not colored mode is on — the per-cell HTML is the escaped glyph, bare
or wrapped in a colored span — and decoding the escaped glyph with a
standard HTML entity decoder returns the original character, for every
character (hence for every glyph of every preset or sanitized custom
charset). -/
theorem c8_html_escaping_roundtrip (c : Char) (colored : Bool) (color : CellColor) :
    htmlUnescape (escapeHtml (String.singleton c)) = String.singleton c
    ∧ ∃ pre post : String,
        htmlCell colored color c = pre ++ escapeHtml (String.singleton c) ++ post := by
  constructor
  · by_cases h1 : c = '&'
    · subst h1; decide
    by_cases h2 : c = '<'
    · subst h2; decide
    by_cases h3 : c = '>'
    · subst h3; decide
    by_cases h4 : c = Char.ofNat 34
    · subst h4; decide
    by_cases h5 : c = Char.ofNat 39
    · subst h5; decide
    by_cases h6 : c = Char.ofNat 96
    · subst h6; decide
    have he : escapeHtml (String.singleton c) = String.singleton c := by
      show String.join ([c].map escapeHtmlChar) = String.singleton c
      simp only [List.map, String.join, List.foldl]
      rw [escapeHtmlChar, if_neg h1, if_neg h2, if_neg h3, if_neg h4, if_neg h5, if_neg h6]
      exact String.empty_append _
    rw [he]
    show String.mk (htmlUnescapeList 1 [c]) = String.singleton c
    rw [htmlUnescapeList, if_neg h1]
    rfl
  · cases colored with
    | false =>
      refine ⟨"", "", ?_⟩
      show escapeHtml (String.singleton c) = "" ++ escapeHtml (String.singleton c) ++ ""
      rw [String.empty_append, String.append_empty]
    | true =>
      exact ⟨"<span style=\"color:" ++ rgbToCSS color.r color.g color.b color.a ++ "\">",
        "</span>", rfl⟩

end AsciiEngine

namespace AsciiEngine

open JsRat

theorem inner_foldl_eq (data : List ℕ) (w len y : ℤ) :
    ∀ (xs : List ℤ) (acc : SampleAcc),
      xs.foldl (fun acc x =>
          if (y * w + x) * 4 + 3 < len then sampleAdd data acc ((y * w + x) * 4)
          else acc) acc
        = (xs.filterMap fun x =>
            if (y * w + x) * 4 + 3 < len then some ((y * w + x) * 4) else none).foldl
            (sampleAdd data) acc := by
  intro xs
  induction xs with
  | nil => intro acc; rfl
  | cons x xs ih =>
    intro acc
    by_cases h : (y * w + x) * 4 + 3 < len
    · simp only [List.foldl_cons, List.filterMap_cons, if_pos h]
      exact ih _
    · simp only [List.foldl_cons, List.filterMap_cons, if_neg h]
      exact ih _

theorem nested_foldl_eq (data : List ℕ) (w len : ℤ) :
    ∀ (ys xs : List ℤ) (acc : SampleAcc),
      ys.foldl (fun acc y =>
          xs.foldl (fun acc x =>
            if (y * w + x) * 4 + 3 < len then sampleAdd data acc ((y * w + x) * 4)
            else acc) acc) acc
        = (ys.flatMap fun y => xs.filterMap fun x =>
            if (y * w + x) * 4 + 3 < len then some ((y * w + x) * 4) else none).foldl
            (sampleAdd data) acc := by
  intro ys
  induction ys with
  | nil => intro xs acc; rfl
  | cons y ys ih =>
    intro xs acc
    rw [List.foldl_cons, List.flatMap_cons, List.foldl_append, inner_foldl_eq, ih]

theorem foldl_sampleAdd_sums (data : List ℕ) :
    ∀ (idxs : List ℤ) (acc : SampleAcc),
      idxs.foldl (sampleAdd data) acc
        = ⟨acc.r + (idxs.map fun i => data.getD i.toNat 0).sum,
           acc.g + (idxs.map fun i => data.getD (i.toNat + 1) 0).sum,
           acc.b + (idxs.map fun i => data.getD (i.toNat + 2) 0).sum,
           acc.a + (idxs.map fun i => data.getD (i.toNat + 3) 0).sum,
           acc.count + idxs.length⟩ := by
  intro idxs
  induction idxs with
  | nil => intro acc; simp
  | cons i l ih =>
    intro acc
    rw [List.foldl_cons, ih]
    simp only [sampleAdd, List.map_cons, List.sum_cons, List.length_cons, SampleAcc.mk.injEq]
    omega

theorem samplePixelColor_eq_spec (pixelData : PixelData) (gridX gridY : ℕ)
    (gridWidth gridHeight : JsRat) :
    samplePixelColor pixelData gridX gridY gridWidth gridHeight
      = samplePixelColorSpec pixelData gridX gridY gridWidth gridHeight := by
  simp only [samplePixelColor, samplePixelColorSpec, cellSampleIndices]
  rw [nested_foldl_eq, foldl_sampleAdd_sums]
  simp

/-- C9: `samplePixelColor` computes exactly the specification
`samplePixelColorSpec`: it sums each RGBA channel over the in-bounds
pixels of the cell's rectangle (`cellSampleIndices`), floor-divides each
sum by the number of sampled pixels, and returns `{0,0,0,255}` when that
number is zero — never dividing by zero. -/
theorem c9_sample_is_average (pixelData : PixelData) (gridX gridY : ℕ)
    (gridWidth gridHeight : JsRat) :
    samplePixelColor pixelData gridX gridY gridWidth gridHeight
      = samplePixelColorSpec pixelData gridX gridY gridWidth gridHeight :=
  samplePixelColor_eq_spec pixelData gridX gridY gridWidth gridHeight

end AsciiEngine

namespace AsciiEngine

open JsRat

theorem getD_le_255 (data : List ℕ) (hbytes : ∀ b ∈ data, b ≤ 255) (j : ℕ) :
    data.getD j 0 ≤ 255 := by
  rw [List.getD_eq_getElem?_getD]
  cases h : data[j]? with
  | none => simp
  | some v =>
    simp only [Option.getD_some]
    exact hbytes v (List.get?_mem (by simpa using h))

theorem avg_le_255 (idxs : List ℤ) (hn : idxs.length ≠ 0) (f : ℤ → ℕ)
    (hf : ∀ i, f i ≤ 255) :
    (idxs.map f).sum / idxs.length ≤ 255 := by
  have h1 : (idxs.map f).sum ≤ idxs.length * 255 := by
    have h2 := List.sum_le_card_nsmul (idxs.map f) 255 (by
      intro x hx
      obtain ⟨i, _, rfl⟩ := List.mem_map.mp hx
      exact hf i)
    simpa [smul_eq_mul, List.length_map, Nat.mul_comm] using h2
  calc (idxs.map f).sum / idxs.length ≤ (idxs.length * 255) / idxs.length :=
        Nat.div_le_div_right h1
    _ = 255 := Nat.mul_div_cancel_left 255 (Nat.pos_of_ne_zero hn)

/-- C10: for a well-formed pixel buffer (`length = width*height*4`, bytes
in `[0,255]`) and a grid position inside a positive grid, every channel of
the sampled cell colour is a natural number at most 255 (the channels are
naturals by construction, so they are integers in `[0,255]`). -/
theorem c10_sample_channels_in_range (pixelData : PixelData)
    (gridX gridY gridWidth gridHeight : ℕ)
    (hlen : pixelData.data.length = pixelData.width * pixelData.height * 4)
    (hbytes : ∀ b ∈ pixelData.data, b ≤ 255)
    (hgw : 1 ≤ gridWidth) (hgh : 1 ≤ gridHeight)
    (hx : gridX < gridWidth) (hy : gridY < gridHeight) :
    (samplePixelColor pixelData gridX gridY (ofInt gridWidth) (ofInt gridHeight)).r ≤ 255
    ∧ (samplePixelColor pixelData gridX gridY (ofInt gridWidth) (ofInt gridHeight)).g ≤ 255
    ∧ (samplePixelColor pixelData gridX gridY (ofInt gridWidth) (ofInt gridHeight)).b ≤ 255
    ∧ (samplePixelColor pixelData gridX gridY (ofInt gridWidth) (ofInt gridHeight)).a ≤ 255 := by
  rw [samplePixelColor_eq_spec]
  unfold samplePixelColorSpec
  by_cases hn : (cellSampleIndices pixelData gridX gridY (ofInt gridWidth)
      (ofInt gridHeight)).length = 0
  · simp [hn]
  · simp only [hn, if_false]
    refine ⟨avg_le_255 _ hn _ fun i => getD_le_255 _ hbytes _,
      avg_le_255 _ hn _ fun i => getD_le_255 _ hbytes _,
      avg_le_255 _ hn _ fun i => getD_le_255 _ hbytes _,
      avg_le_255 _ hn _ fun i => getD_le_255 _ hbytes _⟩

/-- C10 (witness): the range theorem at a 1×1 all-zero-RGB buffer with
alpha 255 and the 1×1 grid. -/
theorem c10_range_witness :
    (samplePixelColor ⟨[0, 0, 0, 255], 1, 1⟩ 0 0 (ofInt 1) (ofInt 1)).r ≤ 255
    ∧ (samplePixelColor ⟨[0, 0, 0, 255], 1, 1⟩ 0 0 (ofInt 1) (ofInt 1)).g ≤ 255
    ∧ (samplePixelColor ⟨[0, 0, 0, 255], 1, 1⟩ 0 0 (ofInt 1) (ofInt 1)).b ≤ 255
    ∧ (samplePixelColor ⟨[0, 0, 0, 255], 1, 1⟩ 0 0 (ofInt 1) (ofInt 1)).a ≤ 255 :=
  c10_sample_channels_in_range ⟨[0, 0, 0, 255], 1, 1⟩ 0 0 1 1 (by decide) (by decide)
    (by decide) (by decide) (by decide) (by decide)

end AsciiEngine
